import Mathlib

/-!
Verification of the movies-bot content pipeline (`src/bot.service.ts`).

Shallow embedding conventions:
* JS strings become `List Char`; JS string indices (UTF-16 code units) become
  list positions, which agrees with the source for the BMP text handled here.
* `Date` values used only in `>` comparisons become `Int` timestamps;
  the ISO calendar-day strings (`YYYY-MM-DD`) compared only for equality
  become `String`.
* JS truthiness is modelled explicitly: a `number | undefined` field is
  `Option Nat` and is truthy exactly when it is `some n` with `n ≠ 0`;
  a `Date | undefined` field is `Option Int` and is truthy exactly when it
  is `some _` (a `Date` object is always truthy).
* Fallible operations return `Option`.
-/

namespace MoviesBot

/-! ### Per-user quota state (`BotService.userDownloads` map values) -/

/-- One value of the `userDownloads` map (`bot.service.ts` lines 33-45). -/
structure UserStats where
  downloadsToday : Nat
  lastResetDate : String
  customLimit : Option Nat
  customLimitExpires : Option Int
  customProtectContent : Option Bool
  customProtectContentExpires : Option Int
  lastRandomMessageId : Option Nat
  processingRandom : Option Bool
deriving DecidableEq

/-- `delete stats.customLimit; delete stats.customLimitExpires` (lines 251-252). -/
def clearCustomLimit (s : UserStats) : UserStats :=
  ⟨s.downloadsToday, s.lastResetDate, none, none,
   s.customProtectContent, s.customProtectContentExpires,
   s.lastRandomMessageId, s.processingRandom⟩

/-- `delete stats.customProtectContent; delete stats.customProtectContentExpires`
(lines 279-280). -/
def clearCustomProtect (s : UserStats) : UserStats :=
  ⟨s.downloadsToday, s.lastResetDate, s.customLimit, s.customLimitExpires,
   none, none, s.lastRandomMessageId, s.processingRandom⟩

/-- `stats.downloadsToday++` (line 263). -/
def incDownloads (s : UserStats) : UserStats :=
  ⟨s.downloadsToday + 1, s.lastResetDate, s.customLimit, s.customLimitExpires,
   s.customProtectContent, s.customProtectContentExpires,
   s.lastRandomMessageId, s.processingRandom⟩

/-- The fresh object literal built on first access or date rollover
(lines 231-238): count 0, today's date, override fields carried over verbatim,
`lastRandomMessageId`/`processingRandom` absent. -/
def freshStats (today : String) (cl : Option Nat) (cle : Option Int)
    (cpc : Option Bool) (cpce : Option Int) : UserStats :=
  ⟨0, today, cl, cle, cpc, cpce, none, none⟩

/-- Result of one non-admin movie request: whether the download was allowed,
the effective limit used (`currentLimit`), the `protect_content` flag sent with
the movie (`none` when the request was rejected and nothing was sent), and the
state left in the `userDownloads` map. -/
structure QuotaStepResult where
  allowed : Bool
  currentLimit : Nat
  protectContent : Option Bool
  state : UserStats
deriving DecidableEq

/-- Custom-limit resolution (lines 242-253):
`if (stats.customLimit && stats.customLimitExpires && stats.customLimitExpires > new Date())
currentLimit = stats.customLimit; else if (stats.customLimit) { delete both fields }`.
`customLimit` is truthy iff present and nonzero; a present `Date` is always truthy. -/
def resolveLimit (s : UserStats) (now : Int) (dailyLimit : Nat) : Nat × UserStats :=
  match s.customLimit, s.customLimitExpires with
  | some l, some e =>
    if l ≠ 0 ∧ now < e then (l, s)
    else if l ≠ 0 then (dailyLimit, clearCustomLimit s)
    else (dailyLimit, s)
  | some l, none =>
    if l ≠ 0 then (dailyLimit, clearCustomLimit s) else (dailyLimit, s)
  | none, _ => (dailyLimit, s)

/-- Daily reset / lazy creation (lines 225-240):
`if (!stats || stats.lastResetDate !== today)` rebuild the stats object with a
zero count, today's date and the override fields carried over verbatim. -/
def resetStage (prior : Option UserStats) (today : String) : UserStats :=
  match prior with
  | none => freshStats today none none none none
  | some s =>
    if s.lastResetDate = today then s
    else freshStats today s.customLimit s.customLimitExpires
      s.customProtectContent s.customProtectContentExpires

/-- `protect_content` resolution (lines 267-283): default protected; only a
`customProtectContent === false` with a present, unexpired expiry disables
protection; an expired (or missing-expiry) entry is deleted on the spot. -/
def protectStage (u : UserStats) (now : Int) (cl : Nat) : QuotaStepResult :=
  match u.customProtectContent with
  | some false =>
    match u.customProtectContentExpires with
    | some e =>
      if now < e then ⟨true, cl, some false, u⟩
      else ⟨true, cl, some true, clearCustomProtect u⟩
    | none => ⟨true, cl, some true, clearCustomProtect u⟩
  | _ => ⟨true, cl, some true, u⟩

/-- Limit gate and increment (lines 255-263) followed by the protect stage:
`if (stats.downloadsToday >= currentLimit)` reply and return (nothing sent),
else `stats.downloadsToday++` and send with the resolved protection flag. -/
def stepAfterReset (t : UserStats) (now : Int) (dailyLimit : Nat) : QuotaStepResult :=
  if (resolveLimit t now dailyLimit).2.downloadsToday ≥ (resolveLimit t now dailyLimit).1 then
    ⟨false, (resolveLimit t now dailyLimit).1, none, (resolveLimit t now dailyLimit).2⟩
  else
    protectStage (incDownloads (resolveLimit t now dailyLimit).2) now
      (resolveLimit t now dailyLimit).1

/-- The non-admin branch of the `hears(/^\d+$/)` handler
(`bot.service.ts` lines 221-283): daily reset / lazy creation, custom-limit
resolution, the `downloadsToday >= currentLimit` gate, the increment, and the
`protect_content` resolution which only runs when the movie is actually sent. -/
def quotaProtectStep (prior : Option UserStats) (today : String) (now : Int)
    (dailyLimit : Nat) : QuotaStepResult :=
  stepAfterReset (resetStage prior today) now dailyLimit

/-- Iterate `quotaProtectStep` over a list of `(today, now)` instants,
recording `(allowed, downloadsToday)` after each call. -/
def quotaTrace (prior : Option UserStats) (dailyLimit : Nat) :
    List (String × Int) → List (Bool × Nat)
  | [] => []
  | (d, t) :: rest =>
    let r := quotaProtectStep prior d t dailyLimit
    (r.allowed, r.state.downloadsToday) :: quotaTrace (some r.state) dailyLimit rest

/-- `/limitup` handler (lines 528-561): validation rejects only non-numbers,
negative limits and non-positive day counts; on success the override and its
expiry (`now` advanced by `days` days) are installed on the target's stats,
created fresh if absent.  Returns `none` when validation rejects. -/
def limitupStep (prior : Option UserStats) (today : String) (newLimit : Int)
    (days : Int) (now : Int) : Option UserStats :=
  if newLimit < 0 ∨ days ≤ 0 then none
  else
    let s :=
      match prior with
      | some s => s
      | none => ⟨0, today, none, none, none, none, none, none⟩
    some ⟨s.downloadsToday, s.lastResetDate, some newLimit.toNat,
      some (now + days * 86400000), s.customProtectContent,
      s.customProtectContentExpires, s.lastRandomMessageId, s.processingRandom⟩

/-! ### Entity renderer (`BotService.toHtml`, `BotService.escapeHtml`) -/

/-- One single-character global replacement, `s.replace(/c/g, rep)`. -/
def replaceChar (c : Char) (rep : List Char) (l : List Char) : List Char :=
  l.flatMap fun x => if x = c then rep else [x]

/-- `escapeHtml` (lines 1120-1127): the five chained global replaces, `&`
first; replacement text introduced by one stage is never touched by a later
stage, exactly as in the source chain. `Char.ofNat 34`/`39` are `"` and `'`. -/
def escapeHtml (l : List Char) : List Char :=
  replaceChar (Char.ofNat 39) "&#039;".toList
    (replaceChar (Char.ofNat 34) "&quot;".toList
      (replaceChar '>' "&gt;".toList
        (replaceChar '<' "&lt;".toList
          (replaceChar '&' "&amp;".toList l))))

/-- A Telegram caption entity as consumed by `toHtml`: `type`, `offset`,
`length` (code units) and `url` (read only for `text_link`). -/
structure TgEntity where
  type : List Char
  offset : Nat
  length : Nat
  url : List Char
deriving DecidableEq

/-- The `switch (e.type)` tag table (lines 1136-1146); `none` models the tag
staying `""`, which makes the entity contribute no events. -/
def tagFor (t : List Char) : Option (List Char) :=
  if t = "bold".toList then some "b".toList
  else if t = "italic".toList then some "i".toList
  else if t = "underline".toList then some "u".toList
  else if t = "strikethrough".toList then some "s".toList
  else if t = "code".toList then some "code".toList
  else if t = "pre".toList then some "pre".toList
  else if t = "spoiler".toList then some "tg-spoiler".toList
  else if t = "blockquote".toList then some "blockquote".toList
  else if t = "text_link".toList then some "a".toList
  else none

inductive EvKind where
  | opening
  | closing
deriving DecidableEq

/-- One element of the `points` array (line 1132): `{ idx, val, type, order }`
where `order` is `-e.length` for open events and `e.length` for close events. -/
structure HtmlPoint where
  idx : Nat
  val : List Char
  kind : EvKind
  order : Int
deriving DecidableEq

/-- The open-tag markup: `<a href="url">` for `text_link`, else `<tag>`. -/
def openVal (e : TgEntity) (tag : List Char) : List Char :=
  if e.type = "text_link".toList then
    "<a href=".toList ++ [Char.ofNat 34] ++ e.url ++ [Char.ofNat 34, '>']
  else '<' :: (tag ++ ['>'])

/-- The close-tag markup: `</a>` for `text_link`, else `</tag>`. -/
def closeVal (e : TgEntity) (tag : List Char) : List Char :=
  if e.type = "text_link".toList then "</a>".toList
  else '<' :: '/' :: (tag ++ ['>'])

/-- Event construction (lines 1134-1157): each recognized entity pushes an
open event at `offset` with `order = -length` and a close event at
`offset + length` with `order = length`; unrecognized kinds push nothing. -/
def pointsOf (entities : List TgEntity) : List HtmlPoint :=
  entities.flatMap fun e =>
    match tagFor e.type with
    | none => []
    | some tag =>
      [⟨e.offset, openVal e tag, EvKind.opening, -(e.length : Int)⟩,
       ⟨e.offset + e.length, closeVal e tag, EvKind.closing, (e.length : Int)⟩]

/-- The sort comparator (lines 1159-1164): position ascending; at equal
position close events before open events; ties broken by `order` ascending. -/
def pointCmp (a b : HtmlPoint) : Int :=
  if a.idx ≠ b.idx then (a.idx : Int) - (b.idx : Int)
  else if a.kind ≠ b.kind then (if a.kind = EvKind.closing then -1 else 1)
  else a.order - b.order

/-- `a` may come before `b` under the comparator (`pointCmp a b ≤ 0`). -/
def pointLe (a b : HtmlPoint) : Prop := pointCmp a b ≤ 0

instance : DecidableRel pointLe :=
  fun a b => inferInstanceAs (Decidable (pointCmp a b ≤ 0))

def evRank : EvKind → Nat
  | EvKind.closing => 0
  | EvKind.opening => 1

theorem pointCmp_le_iff (a b : HtmlPoint) :
    pointCmp a b ≤ 0 ↔
      (a.idx < b.idx ∨ (a.idx = b.idx ∧ evRank a.kind < evRank b.kind) ∨
       (a.idx = b.idx ∧ evRank a.kind = evRank b.kind ∧ a.order ≤ b.order)) := by
  unfold pointCmp
  by_cases hi : a.idx = b.idx
  · rw [if_neg (fun h => h hi)]
    by_cases hk : a.kind = b.kind
    · rw [if_neg (fun h => h hk)]
      have hr : evRank a.kind = evRank b.kind := by rw [hk]
      constructor
      · intro h
        exact Or.inr (Or.inr ⟨hi, hr, by omega⟩)
      · rintro (h | ⟨-, h⟩ | ⟨-, -, h⟩) <;> omega
    · rw [if_pos hk]
      cases hA : a.kind <;> cases hB : b.kind <;> simp_all [evRank]
  · rw [if_pos hi]
    constructor
    · intro h
      left
      omega
    · rintro (h | ⟨h, _⟩ | ⟨h, _⟩) <;> omega

instance : IsTotal HtmlPoint pointLe := by
  constructor
  intro a b
  unfold pointLe
  rw [pointCmp_le_iff, pointCmp_le_iff]
  omega

instance : IsTrans HtmlPoint pointLe := by
  constructor
  intro a b c hab hbc
  unfold pointLe at hab hbc ⊢
  rw [pointCmp_le_iff] at hab hbc ⊢
  omega

/-- `points.sort(comparator)`: JS `Array.prototype.sort` is stable, which is
exactly insertion sort by the non-strict comparator order. -/
def sortPoints (l : List HtmlPoint) : List HtmlPoint :=
  List.insertionSort pointLe l

/-- The sweep (lines 1166-1179): between event positions copy escaped literal
text, at each event emit its tag, then escape and append the trailing text. -/
def sweep (text : List Char) : List HtmlPoint → Nat → List Char → List Char
  | [], cursor, acc =>
    if cursor < text.length then acc ++ escapeHtml (text.drop cursor) else acc
  | p :: ps, cursor, acc =>
    if cursor < p.idx then
      sweep text ps p.idx
        ((acc ++ escapeHtml ((text.drop cursor).take (p.idx - cursor))) ++ p.val)
    else
      sweep text ps cursor (acc ++ p.val)

/-- `toHtml` (lines 1129-1180). -/
def toHtml (text : List Char) (entities : List TgEntity) : List Char :=
  if entities.isEmpty then escapeHtml text
  else sweep text (sortPoints (pointsOf entities)) 0 []

/-! ### Caption parser (`BotService.parseCaption`) -/

/-- JS `\s` / `trim()` whitespace, restricted to the ASCII class relevant to
the parsed captions (per-line text never contains `\n`, it is the split
separator). -/
def isWsChar (c : Char) : Bool :=
  c = ' ' || c = '\t' || c = '\n' || c = '\r' || c = '\x0b' || c = '\x0c'

/-- JS `\d`. -/
def isDigitChar (c : Char) : Bool := '0' ≤ c && c ≤ '9'

/-- The first-line separator class `[-:–]`. -/
def isSepChar (c : Char) : Bool := c = '-' || c = ':' || c = '–'

/-- JS `String.prototype.trim` on both ends. -/
def trimChars (l : List Char) : List Char :=
  ((l.dropWhile isWsChar).reverse.dropWhile isWsChar).reverse

/-- Case-insensitive literal prefix match (`/^Pat/i`): returns the rest of
the input after the pattern, or `none`. -/
def ciStarts : List Char → List Char → Option (List Char)
  | [], s => some s
  | _ :: _, [] => none
  | p :: ps, c :: cs => if c.toLower = p.toLower then ciStarts ps cs else none

/-- The capture of `\s*(.+)$` at the end of a line: the greedy `\s*`
swallows the whitespace run and `(.+)` takes the nonempty remainder; when the
remainder is empty the engine backtracks `\s*` by exactly one character, so
the capture is the final character of the input; an empty input fails. -/
def wsCapture (rest : List Char) : Option (List Char) :=
  let r1 := rest.dropWhile isWsChar
  match r1 with
  | _ :: _ => some r1
  | [] =>
    match rest.reverse with
    | [] => none
    | c :: _ => some [c]

/-- The capture of `\s*[-:–]*\s*(.+)$` (the tail of the first-line regex):
the three greedy runs, then a nonempty remainder; when the remainder is empty,
minimal backtracking of whichever greedy run matched last frees exactly the
final character of the input, which becomes the capture. -/
def tailCapture (r : List Char) : Option (List Char) :=
  let r3 := ((r.dropWhile isWsChar).dropWhile isSepChar).dropWhile isWsChar
  match r3 with
  | _ :: _ => some r3
  | [] =>
    match r.reverse with
    | [] => none
    | c :: _ => some [c]

/-- `/^\s*#?(\d+)\s*[-:–]*\s*(.+)$/` (line 1189) as the deterministic result
of the JS backtracking engine: leading whitespace is skipped (the next token
must be `#` or a digit, so only the maximal run can match); a leading `#` must
be consumed when present (otherwise `\d+` fails on it); `(\d+)` takes the
maximal digit run and, when nothing is left for the tail, gives back exactly
one digit (possible only when there are at least two). Returns
`(m[1], m[2])`. -/
def firstLineMatch (s : List Char) : Option (List Char × List Char) :=
  let s1 := s.dropWhile isWsChar
  let s2 :=
    match s1 with
    | '#' :: rest => rest
    | _ => s1
  let d := s2.takeWhile isDigitChar
  let r := s2.dropWhile isDigitChar
  match d with
  | [] => none
  | _ :: _ =>
    match tailCapture r with
    | some t => some (d, t)
    | none =>
      match d.reverse with
      | [] => none
      | c :: cs =>
        match cs with
        | [] => none
        | _ :: _ => some (d.dropLast, [c])

/-- The literal of `/^Category:\s*(.+)$/i`. -/
def catPat : List Char := ['C', 'a', 't', 'e', 'g', 'o', 'r', 'y', ':']

/-- The literal of `/^Description:\s*(.+)$/i`. -/
def descPat : List Char := ['D', 'e', 's', 'c', 'r', 'i', 'p', 't', 'i', 'o', 'n', ':']

/-- `line.match(/^Pat:\s*(.+)$/i)`, returning `m[1]`. -/
def lineCapture (pat : List Char) (line : List Char) : Option (List Char) :=
  match ciStarts pat line with
  | some rest => wsCapture rest
  | none => none

/-- The length of `originalLine.match(/^Description:\s*/i)[0]` (line 1233):
the pattern plus the maximal whitespace run after it. -/
def descHeadLen (line : List Char) : Nat :=
  match ciStarts descPat line with
  | some rest => descPat.length + (rest.takeWhile isWsChar).length
  | none => 0

/-- `lines.join("\n")`. -/
def joinNl : List (List Char) → List Char
  | [] => []
  | [l] => l
  | l :: ls => l ++ '\n' :: joinNl ls

/-- The `ParsedCaption` record (lines 10-16). -/
structure ParsedCaption where
  code : List Char
  title : List Char
  category : Option (List Char)
  description : Option (List Char)
  descriptionStartOffset : Option Nat
deriving DecidableEq

/-- The marker scan (lines 1202-1260), started on the lines after the first
with the offset already advanced past the first line: every line whose
*trimmed* text matches `Category:` overwrites `category` with the trimmed
value; the first line whose trimmed text matches `Description:` ends the scan —
if the *original* line also matches, the description is that capture joined
with all remaining lines and its content offset is recorded, otherwise the
loop just breaks (`description` stays unset). -/
def scanLines : List (List Char) → Nat → Option (List Char) →
    Option (List Char) × Option (List Char × Nat)
  | [], _, cat => (cat, none)
  | line :: rest, offset, cat =>
    match lineCapture catPat (trimChars line) with
    | some v => scanLines rest (offset + line.length + 1) (some (trimChars v))
    | none =>
      match lineCapture descPat (trimChars line) with
      | some _ =>
        match lineCapture descPat line with
        | some capture => (cat, some (joinNl (capture :: rest), offset + descHeadLen line))
        | none => (cat, none)
      | none => scanLines rest (offset + line.length + 1) cat

/-- `parseCaption` (lines 1182-1263): split on `\n`, match the first-line
regex on the trimmed first line, reject an empty code or trimmed title, then
run the marker scan over the remaining lines with the offset already past the
first line and its newline. -/
def parseCaption (caption : List Char) : Option ParsedCaption :=
  match List.splitOn '\n' caption with
  | [] => none
  | l0 :: restLines =>
    match firstLineMatch (trimChars l0) with
    | none => none
    | some (code, t) =>
      match code, trimChars t with
      | [], _ => none
      | _, [] => none
      | _ :: _, _ :: _ =>
        match (scanLines restLines (l0.length + 1) none).2 with
        | some (d, off) =>
          some ⟨code, trimChars t, (scanLines restLines (l0.length + 1) none).1,
            some d, some off⟩
        | none =>
          some ⟨code, trimChars t, (scanLines restLines (l0.length + 1) none).1,
            none, none⟩

/-- Specification-side description of the recorded category: the trimmed
value of the *last* `Category:`-matching line occurring before the first
`Description:`-matching line (else the carried-in value). -/
def lastCategory (lines : List (List Char)) (cat : Option (List Char)) :
    Option (List Char) :=
  ((lines.takeWhile fun l => !(lineCapture descPat (trimChars l)).isSome).filterMap
    fun l => (lineCapture catPat (trimChars l)).map trimChars).foldl
    (fun _ v => some v) cat

/-! ### Membership gate (`BotService.forceJoinCheck`) -/

/-- The statuses that count as joined (line 916). -/
def joinedStatuses : List (List Char) :=
  ["member".toList, "administrator".toList, "creator".toList]

/-- The `notJoined` accumulation (lines 913-922): `lookup` models
`getChatMember` (`none` = the call threw); a channel is unmet when the lookup
throws or returns a status outside `joinedStatuses`. -/
def notJoinedChannels (channels : List (List Char))
    (lookup : List Char → Option (List Char)) : List (List Char) :=
  channels.filter fun ch =>
    match lookup ch with
    | some st => !(joinedStatuses.contains st)
    | none => true

/-- `forceJoinCheck` (lines 907-935) for a present subject: `true` vacuously
when the gate is inactive, else `true` iff no required channel is unmet. -/
def forceJoinCheck (active : Bool) (channels : List (List Char))
    (lookup : List Char → Option (List Char)) : Bool :=
  if !active then true
  else (notJoinedChannels channels lookup).isEmpty

/-! ### Broadcast dispatcher (`BotService.broadcast`, `BotService.chunkArray`) -/

/-- `chunkArray` (lines 1096-1102): slices of `size` from the front.  The JS
loop does not terminate for `size = 0`; the model returns `[]` there — the
source only ever calls it with the literal 25. -/
def chunkArray {α : Type} (arr : List α) (size : Nat) : List (List α) :=
  match arr, size with
  | [], _ => []
  | _ :: _, 0 => []
  | a :: as, s + 1 => ((a :: as).take (s + 1)) :: chunkArray ((a :: as).drop (s + 1)) (s + 1)
termination_by arr.length
decreasing_by
  simp [List.length_drop]
  omega

/-- Outcome of one transport send (`bot.telegram.send*`): delivered, or
thrown with an error message. -/
inductive SendResult where
  | delivered
  | failed (msg : List Char)
deriving DecidableEq

/-- One broadcast payload (lines 1004-1010). -/
structure BroadcastItem where
  text : Option (List Char)
  fileId : Option (List Char)
  fileType : Option (List Char)
deriving DecidableEq

def isMediaType (t : List Char) : Bool :=
  t = "photo".toList || t = "video".toList || t = "document".toList ||
    t = "animation".toList

/-- One `(user, item)` attempt (the `switch` at lines 1029-1067): a media
`fileType` always sends; the `default` arm sends a message only when
`item.text` is present (otherwise no transport call happens at all). -/
def attemptOne (send : List Char → BroadcastItem → SendResult) (uid : List Char)
    (it : BroadcastItem) : Option SendResult :=
  match it.fileType with
  | some t =>
    if isMediaType t then some (send uid it)
    else if it.text.isSome then some (send uid it) else none
  | none => if it.text.isSome then some (send uid it) else none

/-- `startsWithChars pat s`: `s` begins with `pat`. -/
def startsWithChars : List Char → List Char → Bool
  | [], _ => true
  | _ :: _, [] => false
  | p :: ps, c :: cs => p = c && startsWithChars ps cs

/-- JS `String.prototype.includes`. -/
def containsSub (pat : List Char) : List Char → Bool
  | [] => pat.isEmpty
  | c :: cs => startsWithChars pat (c :: cs) || containsSub pat cs

/-- `err?.message || "unknown error"` (line 1069). -/
def msgOrUnknown (m : List Char) : List Char :=
  if m.isEmpty then "unknown error".toList else m

/-- The permanently-unreachable classification (lines 1072-1075):
`msg.includes("Forbidden") || msg.includes("user is deactivated")`. -/
def isPermanentMsg (m : List Char) : Bool :=
  containsSub "Forbidden".toList (msgOrUnknown m) ||
    containsSub "user is deactivated".toList (msgOrUnknown m)

/-- The item loop of one user (lines 1020-1088): skipped entirely when the
`telegramId` is falsy (empty string), else one attempt per payload in order;
each attempt is individually try/caught, so every item is attempted whatever
the earlier outcomes. -/
def userAttempts (send : List Char → BroadcastItem → SendResult)
    (items : List BroadcastItem) (uid : List Char) :
    List (List Char × BroadcastItem × Option SendResult) :=
  if uid.isEmpty then [] else items.map fun it => (uid, it, attemptOne send uid it)

/-- The attempt log of one broadcast run (lines 1012-1093): users are chunked
into waves of 25 processed in order; within a wave `Promise.allSettled` runs
every user's item loop to completion independently of the others. -/
def broadcastLog (users : List (List Char)) (items : List BroadcastItem)
    (send : List Char → BroadcastItem → SendResult) :
    List (List Char × BroadcastItem × Option SendResult) :=
  (chunkArray users 25).flatMap fun chunk => chunk.flatMap (userAttempts send items)

/-- The `userService.remove` invocations of the run (lines 1068-1085): one per
attempt whose thrown message is classified permanently unreachable. -/
def broadcastRemovals (users : List (List Char)) (items : List BroadcastItem)
    (send : List Char → BroadcastItem → SendResult) : List (List Char) :=
  (broadcastLog users items send).filterMap fun a =>
    match a.2.2 with
    | some (SendResult.failed m) => if isPermanentMsg m then some a.1 else none
    | _ => none

end MoviesBot

namespace MoviesBot

/-! ### Theorems: quota manager -/

theorem resetStage_overrides (s : UserStats) (today : String) :
    (resetStage (some s) today).customLimit = s.customLimit ∧
    (resetStage (some s) today).customLimitExpires = s.customLimitExpires ∧
    (resetStage (some s) today).customProtectContent = s.customProtectContent ∧
    (resetStage (some s) today).customProtectContentExpires = s.customProtectContentExpires := by
  simp only [resetStage, freshStats]
  split <;> exact ⟨rfl, rfl, rfl, rfl⟩

theorem resolveLimit_honored {s : UserStats} {l : Nat} {e : Int} (now : Int) (dl : Nat)
    (h1 : s.customLimit = some l) (h2 : s.customLimitExpires = some e)
    (hl : l ≠ 0) (he : now < e) : resolveLimit s now dl = (l, s) := by
  unfold resolveLimit
  rw [h1, h2]
  simp [hl, he]

theorem resolveLimit_expired {s : UserStats} {l : Nat} {e : Int} (now : Int) (dl : Nat)
    (h1 : s.customLimit = some l) (h2 : s.customLimitExpires = some e)
    (hl : l ≠ 0) (he : ¬ now < e) :
    resolveLimit s now dl = (dl, clearCustomLimit s) := by
  unfold resolveLimit
  rw [h1, h2]
  simp [hl, he]

theorem resolveLimit_zero {s : UserStats} {e : Int} (now : Int) (dl : Nat)
    (h1 : s.customLimit = some 0) (h2 : s.customLimitExpires = some e) :
    resolveLimit s now dl = (dl, s) := by
  unfold resolveLimit
  rw [h1, h2]
  simp

theorem resolveLimit_noOverride {s : UserStats} (now : Int) (dl : Nat)
    (h1 : s.customLimit = none) : resolveLimit s now dl = (dl, s) := by
  unfold resolveLimit
  rw [h1]

theorem resolveLimit_someNoExpiry {s : UserStats} {l : Nat} (now : Int) (dl : Nat)
    (h1 : s.customLimit = some l) (h2 : s.customLimitExpires = none) :
    resolveLimit s now dl = if l ≠ 0 then (dl, clearCustomLimit s) else (dl, s) := by
  unfold resolveLimit
  rw [h1, h2]

theorem resolveLimit_protect (s : UserStats) (now : Int) (dl : Nat) :
    (resolveLimit s now dl).2.customProtectContent = s.customProtectContent ∧
    (resolveLimit s now dl).2.customProtectContentExpires = s.customProtectContentExpires ∧
    (resolveLimit s now dl).2.downloadsToday = s.downloadsToday := by
  rcases h1 : s.customLimit with _ | l
  · rw [resolveLimit_noOverride now dl h1]
    exact ⟨rfl, rfl, rfl⟩
  · rcases h2 : s.customLimitExpires with _ | e
    · rw [resolveLimit_someNoExpiry now dl h1 h2]
      split_ifs <;> exact ⟨rfl, rfl, rfl⟩
    · by_cases hl : l = 0
      · subst hl
        rw [resolveLimit_zero now dl h1 h2]
        exact ⟨rfl, rfl, rfl⟩
      · by_cases he : now < e
        · rw [resolveLimit_honored now dl h1 h2 hl he]
          exact ⟨rfl, rfl, rfl⟩
        · rw [resolveLimit_expired now dl h1 h2 hl he]
          exact ⟨rfl, rfl, rfl⟩

theorem protectStage_limit_fields (u : UserStats) (now : Int) (cl : Nat) :
    (protectStage u now cl).currentLimit = cl ∧
    (protectStage u now cl).allowed = true ∧
    (protectStage u now cl).state.customLimit = u.customLimit ∧
    (protectStage u now cl).state.customLimitExpires = u.customLimitExpires := by
  unfold protectStage
  split
  · split
    · split_ifs <;> exact ⟨rfl, rfl, rfl, rfl⟩
    · exact ⟨rfl, rfl, rfl, rfl⟩
  · exact ⟨rfl, rfl, rfl, rfl⟩

theorem protectStage_active {u : UserStats} {now : Int} {cl : Nat} {e : Int}
    (h1 : u.customProtectContent = some false)
    (h2 : u.customProtectContentExpires = some e) (he : now < e) :
    protectStage u now cl = ⟨true, cl, some false, u⟩ := by
  unfold protectStage
  rw [h1, h2]
  simp [he]

theorem protectStage_expired {u : UserStats} {now : Int} {cl : Nat} {e : Int}
    (h1 : u.customProtectContent = some false)
    (h2 : u.customProtectContentExpires = some e) (he : ¬ now < e) :
    protectStage u now cl = ⟨true, cl, some true, clearCustomProtect u⟩ := by
  unfold protectStage
  rw [h1, h2]
  simp [he]

theorem protectStage_noOverride {u : UserStats} {now : Int} {cl : Nat}
    (h1 : u.customProtectContent = none) :
    protectStage u now cl = ⟨true, cl, some true, u⟩ := by
  unfold protectStage
  rw [h1]

theorem stepAfterReset_limit_fields (t : UserStats) (now : Int) (dl : Nat) :
    (stepAfterReset t now dl).currentLimit = (resolveLimit t now dl).1 ∧
    (stepAfterReset t now dl).state.customLimit = (resolveLimit t now dl).2.customLimit ∧
    (stepAfterReset t now dl).state.customLimitExpires = (resolveLimit t now dl).2.customLimitExpires := by
  unfold stepAfterReset
  split
  · exact ⟨rfl, rfl, rfl⟩
  · have h := protectStage_limit_fields (incDownloads (resolveLimit t now dl).2) now
      (resolveLimit t now dl).1
    exact ⟨h.1, h.2.2.1, h.2.2.2⟩

theorem stepAfterReset_allowed (t : UserStats) (now : Int) (dl : Nat) :
    (stepAfterReset t now dl).allowed = true ↔
      ¬ (resolveLimit t now dl).2.downloadsToday ≥ (resolveLimit t now dl).1 := by
  unfold stepAfterReset
  split
  · rename_i h
    simp [h]
  · rename_i h
    have := (protectStage_limit_fields (incDownloads (resolveLimit t now dl).2) now
      (resolveLimit t now dl).1).2.1
    simp [this, h]

theorem stepAfterReset_not_gated {t : UserStats} {now : Int} {dl : Nat}
    (h : ¬ (resolveLimit t now dl).2.downloadsToday ≥ (resolveLimit t now dl).1) :
    stepAfterReset t now dl =
      protectStage (incDownloads (resolveLimit t now dl).2) now (resolveLimit t now dl).1 := by
  unfold stepAfterReset
  rw [if_neg h]

theorem stepAfterReset_protect_none {t : UserStats} {now : Int} {dl : Nat}
    (h1 : t.customProtectContent = none) (h2 : t.customProtectContentExpires = none) :
    (stepAfterReset t now dl).state.customProtectContent = none ∧
    (stepAfterReset t now dl).state.customProtectContentExpires = none := by
  have hp := resolveLimit_protect t now dl
  unfold stepAfterReset
  split
  · exact ⟨hp.1.trans h1, hp.2.1.trans h2⟩
  · have hu1 : (incDownloads (resolveLimit t now dl).2).customProtectContent = none := by
      show (resolveLimit t now dl).2.customProtectContent = none
      rw [hp.1, h1]
    rw [protectStage_noOverride hu1]
    refine ⟨hu1, ?_⟩
    show (resolveLimit t now dl).2.customProtectContentExpires = none
    rw [hp.2.1, h2]

/-- C1: for a fresh subject with no override and default limit 5, the quota
check-and-consume allows exactly 5 consecutive same-day calls with counts
1..5, rejects the 6th leaving the count at 5, and after the calendar date
rolls over the next call is allowed again with count 1. -/
theorem quota_fresh_limit5_trace :
    quotaTrace none 5
      [("2024-01-01", 0), ("2024-01-01", 0), ("2024-01-01", 0),
       ("2024-01-01", 0), ("2024-01-01", 0), ("2024-01-01", 0),
       ("2024-01-02", 0)] =
      [(true, 1), (true, 2), (true, 3), (true, 4), (true, 5),
       (false, 5), (true, 1)] := by
  decide

/-- C4 counterexample: a limit override of value 0 is falsy in JS, so when it
is observed expired (`now = 10`, expiry `5`) the request neither honors nor
clears it — the override fields remain in the subject's state, contradicting
"on the first operation that observes it expired the override fields are
permanently removed". -/
theorem quota_override_expiry_counterexample :
    ¬ ((10 : Int) < 5) ∧
    (quotaProtectStep (some ⟨0, "2024-01-01", some 0, some 5, none, none, none, none⟩)
      "2024-01-01" 10 3).state.customLimit = some 0 ∧
    (quotaProtectStep (some ⟨0, "2024-01-01", some 0, some 5, none, none, none, none⟩)
      "2024-01-01" 10 3).state.customLimitExpires = some 5 := by
  decide

/-- C4 (amended to nonzero limit overrides): for every subject, a *nonzero*
limit override and a protection override are honored only while `now` is
strictly before their expiry; the first request that observes them expired
removes the fields from the state (for the protection override: the first
request that is allowed, since a rejected request returns before the
protection check runs); and a request never installs an override, so when the
fields are absent they stay absent — the clearing happens at most once. -/
theorem quota_override_expiry (s : UserStats) (today : String) (now : Int)
    (dl : Nat) (l : Nat) (e : Int) :
    (s.customLimit = some l → l ≠ 0 → s.customLimitExpires = some e → now < e →
      (quotaProtectStep (some s) today now dl).currentLimit = l ∧
      (quotaProtectStep (some s) today now dl).state.customLimit = some l ∧
      (quotaProtectStep (some s) today now dl).state.customLimitExpires = some e) ∧
    (s.customLimit = some l → l ≠ 0 → s.customLimitExpires = some e → ¬ now < e →
      (quotaProtectStep (some s) today now dl).currentLimit = dl ∧
      (quotaProtectStep (some s) today now dl).state.customLimit = none ∧
      (quotaProtectStep (some s) today now dl).state.customLimitExpires = none) ∧
    (s.customLimit = none → s.customLimitExpires = none →
      (quotaProtectStep (some s) today now dl).state.customLimit = none ∧
      (quotaProtectStep (some s) today now dl).state.customLimitExpires = none) ∧
    (s.customProtectContent = some false → s.customProtectContentExpires = some e →
      now < e → (quotaProtectStep (some s) today now dl).allowed = true →
      (quotaProtectStep (some s) today now dl).protectContent = some false ∧
      (quotaProtectStep (some s) today now dl).state.customProtectContent = some false ∧
      (quotaProtectStep (some s) today now dl).state.customProtectContentExpires = some e) ∧
    (s.customProtectContent = some false → s.customProtectContentExpires = some e →
      ¬ now < e → (quotaProtectStep (some s) today now dl).allowed = true →
      (quotaProtectStep (some s) today now dl).protectContent = some true ∧
      (quotaProtectStep (some s) today now dl).state.customProtectContent = none ∧
      (quotaProtectStep (some s) today now dl).state.customProtectContentExpires = none) ∧
    (s.customProtectContent = none → s.customProtectContentExpires = none →
      (quotaProtectStep (some s) today now dl).state.customProtectContent = none ∧
      (quotaProtectStep (some s) today now dl).state.customProtectContentExpires = none) := by
  have hro := resetStage_overrides s today
  have hf := stepAfterReset_limit_fields (resetStage (some s) today) now dl
  refine ⟨?_, ?_, ?_, ?_, ?_, ?_⟩
  · intro h1 hl h2 he
    have h1' : (resetStage (some s) today).customLimit = some l := hro.1.trans h1
    have h2' : (resetStage (some s) today).customLimitExpires = some e := hro.2.1.trans h2
    have hres := resolveLimit_honored now dl h1' h2' hl he
    simp only [quotaProtectStep]
    rw [hf.1, hf.2.1, hf.2.2, hres]
    exact ⟨rfl, h1', h2'⟩
  · intro h1 hl h2 he
    have h1' : (resetStage (some s) today).customLimit = some l := hro.1.trans h1
    have h2' : (resetStage (some s) today).customLimitExpires = some e := hro.2.1.trans h2
    have hres := resolveLimit_expired now dl h1' h2' hl he
    simp only [quotaProtectStep]
    rw [hf.1, hf.2.1, hf.2.2, hres]
    exact ⟨rfl, rfl, rfl⟩
  · intro h1 h2
    have h1' : (resetStage (some s) today).customLimit = none := hro.1.trans h1
    have h2' : (resetStage (some s) today).customLimitExpires = none := hro.2.1.trans h2
    have hres := resolveLimit_noOverride now dl h1'
    simp only [quotaProtectStep]
    rw [hf.2.1, hf.2.2, hres]
    exact ⟨h1', h2'⟩
  · intro hp1 hp2 he hall
    have ht1 : (resetStage (some s) today).customProtectContent = some false :=
      hro.2.2.1.trans hp1
    have ht2 : (resetStage (some s) today).customProtectContentExpires = some e :=
      hro.2.2.2.trans hp2
    simp only [quotaProtectStep] at hall ⊢
    have hgate := (stepAfterReset_allowed (resetStage (some s) today) now dl).mp hall
    have hp := resolveLimit_protect (resetStage (some s) today) now dl
    have hu1 : (incDownloads (resolveLimit (resetStage (some s) today) now dl).2).customProtectContent
        = some false := by
      show (resolveLimit (resetStage (some s) today) now dl).2.customProtectContent = some false
      rw [hp.1, ht1]
    have hu2 : (incDownloads (resolveLimit (resetStage (some s) today) now dl).2).customProtectContentExpires
        = some e := by
      show (resolveLimit (resetStage (some s) today) now dl).2.customProtectContentExpires = some e
      rw [hp.2.1, ht2]
    rw [stepAfterReset_not_gated hgate, protectStage_active hu1 hu2 he]
    exact ⟨rfl, hu1, hu2⟩
  · intro hp1 hp2 he hall
    have ht1 : (resetStage (some s) today).customProtectContent = some false :=
      hro.2.2.1.trans hp1
    have ht2 : (resetStage (some s) today).customProtectContentExpires = some e :=
      hro.2.2.2.trans hp2
    simp only [quotaProtectStep] at hall ⊢
    have hgate := (stepAfterReset_allowed (resetStage (some s) today) now dl).mp hall
    have hp := resolveLimit_protect (resetStage (some s) today) now dl
    have hu1 : (incDownloads (resolveLimit (resetStage (some s) today) now dl).2).customProtectContent
        = some false := by
      show (resolveLimit (resetStage (some s) today) now dl).2.customProtectContent = some false
      rw [hp.1, ht1]
    have hu2 : (incDownloads (resolveLimit (resetStage (some s) today) now dl).2).customProtectContentExpires
        = some e := by
      show (resolveLimit (resetStage (some s) today) now dl).2.customProtectContentExpires = some e
      rw [hp.2.1, ht2]
    rw [stepAfterReset_not_gated hgate, protectStage_expired hu1 hu2 he]
    exact ⟨rfl, rfl, rfl⟩
  · intro hp1 hp2
    have ht1 : (resetStage (some s) today).customProtectContent = none :=
      hro.2.2.1.trans hp1
    have ht2 : (resetStage (some s) today).customProtectContentExpires = none :=
      hro.2.2.2.trans hp2
    simp only [quotaProtectStep]
    exact stepAfterReset_protect_none ht1 ht2

/-- C4 witness: each branch of `quota_override_expiry` exercised at concrete
inputs (limit override honored at 7, cleared when expired; protection override
honored unexpired, cleared expired). -/
theorem quota_override_expiry_witness :
    (quotaProtectStep (some ⟨0, "2024-01-01", some 7, some 100, none, none, none, none⟩)
      "2024-01-01" 0 3).currentLimit = 7 ∧
    (quotaProtectStep (some ⟨0, "2024-01-01", some 7, some 100, none, none, none, none⟩)
      "2024-01-01" 200 3).state.customLimit = none ∧
    (quotaProtectStep (some ⟨0, "2024-01-01", none, none, some false, some 100, none, none⟩)
      "2024-01-01" 0 3).protectContent = some false ∧
    (quotaProtectStep (some ⟨0, "2024-01-01", none, none, some false, some 100, none, none⟩)
      "2024-01-01" 200 3).state.customProtectContent = none := by
  refine ⟨?_, ?_, ?_, ?_⟩
  · exact ((quota_override_expiry
      ⟨0, "2024-01-01", some 7, some 100, none, none, none, none⟩
      "2024-01-01" 0 3 7 100).1 rfl (by decide) rfl (by decide)).1
  · exact (((quota_override_expiry
      ⟨0, "2024-01-01", some 7, some 100, none, none, none, none⟩
      "2024-01-01" 200 3 7 100).2.1) rfl (by decide) rfl (by decide)).2.1
  · exact (((quota_override_expiry
      ⟨0, "2024-01-01", none, none, some false, some 100, none, none⟩
      "2024-01-01" 0 3 1 100).2.2.2.1) rfl rfl (by decide) (by decide)).1
  · exact (((quota_override_expiry
      ⟨0, "2024-01-01", none, none, some false, some 100, none, none⟩
      "2024-01-01" 200 3 1 100).2.2.2.2.1) rfl rfl (by decide) (by decide)).2.1

/-- C10: `/limitup` accepts a limit of 0 (it only rejects negative limits and
non-positive day counts) and installs it; a 0-valued limit override with an
unexpired expiry is falsy, so the quota check uses the default daily limit and
leaves the override fields untouched (neither honored nor cleared). -/
theorem limitup_zero_override_uses_default (prior : Option UserStats)
    (today : String) (days now : Int) (s : UserStats) (e : Int) (dl : Nat) :
    (0 < days → ∃ s', limitupStep prior today 0 days now = some s' ∧
      s'.customLimit = some 0 ∧
      s'.customLimitExpires = some (now + days * 86400000)) ∧
    (s.customLimit = some 0 → s.customLimitExpires = some e → now < e →
      (quotaProtectStep (some s) today now dl).currentLimit = dl ∧
      (quotaProtectStep (some s) today now dl).state.customLimit = some 0 ∧
      (quotaProtectStep (some s) today now dl).state.customLimitExpires = some e) := by
  constructor
  · intro hd
    unfold limitupStep
    rw [if_neg (by omega : ¬ ((0 : Int) < 0 ∨ days ≤ 0))]
    rcases prior with _ | s0
    · exact ⟨_, rfl, rfl, rfl⟩
    · exact ⟨_, rfl, rfl, rfl⟩
  · intro h1 h2 _he
    have hro := resetStage_overrides s today
    have hf := stepAfterReset_limit_fields (resetStage (some s) today) now dl
    have h1' : (resetStage (some s) today).customLimit = some 0 := hro.1.trans h1
    have h2' : (resetStage (some s) today).customLimitExpires = some e := hro.2.1.trans h2
    have hres := resolveLimit_zero now dl h1' h2'
    simp only [quotaProtectStep]
    rw [hf.1, hf.2.1, hf.2.2, hres]
    exact ⟨rfl, h1', h2'⟩

/-- C10 witness: installing a 0 override for 7 days succeeds, and a subject
holding an unexpired 0 override is limited by the default limit 3 with the
override fields untouched. -/
theorem limitup_zero_override_uses_default_witness :
    (∃ s', limitupStep none "2024-01-01" 0 7 0 = some s' ∧
      s'.customLimit = some 0 ∧
      s'.customLimitExpires = some ((0 : Int) + 7 * 86400000)) ∧
    (quotaProtectStep (some ⟨0, "2024-01-01", some 0, some 100, none, none, none, none⟩)
      "2024-01-01" 10 3).currentLimit = 3 ∧
    (quotaProtectStep (some ⟨0, "2024-01-01", some 0, some 100, none, none, none, none⟩)
      "2024-01-01" 10 3).state.customLimit = some 0 := by
  refine ⟨?_, ?_, ?_⟩
  · exact (limitup_zero_override_uses_default none "2024-01-01" 7 0
      ⟨0, "2024-01-01", some 0, some 100, none, none, none, none⟩ 100 3).1 (by decide)
  · exact ((limitup_zero_override_uses_default none "2024-01-01" 7 10
      ⟨0, "2024-01-01", some 0, some 100, none, none, none, none⟩ 100 3).2
      rfl rfl (by decide)).1
  · exact ((limitup_zero_override_uses_default none "2024-01-01" 7 10
      ⟨0, "2024-01-01", some 0, some 100, none, none, none, none⟩ 100 3).2
      rfl rfl (by decide)).2.1

/-! ### Theorems: entity renderer -/

theorem pointsOf_nil_of_unknown {entities : List TgEntity}
    (h : ∀ e ∈ entities, tagFor e.type = none) : pointsOf entities = [] := by
  induction entities with
  | nil => rfl
  | cons e es ih =>
    have he := h e (List.mem_cons_self e es)
    have hes : ∀ x ∈ es, tagFor x.type = none := fun x hx => h x (List.mem_cons_of_mem e hx)
    simp [pointsOf, he, ih hes]
    intro x hx
    rw [hes x hx]

/-- C2 counterexample: with bold at `(0,10)` over the 11-character
`"Hello world"`, the bold close event falls at position 10, so the render is
`"<b><i>Hello</i> worl</b>d"`, not the claimed `"<b><i>Hello</i> world</b>"`. -/
theorem toHtml_event_order_counterexample :
    toHtml "Hello world".toList
        [⟨"bold".toList, 0, 10, []⟩, ⟨"italic".toList, 0, 5, []⟩] ≠
      "<b><i>Hello</i> world</b>".toList ∧
    toHtml "Hello world".toList
        [⟨"bold".toList, 0, 10, []⟩, ⟨"italic".toList, 0, 5, []⟩] =
      "<b><i>Hello</i> worl</b>d".toList := by
  decide

/-- C2 (amended): for every collection of spans the sorted event list is
ordered by position ascending, at equal positions no close event follows an
open event, and among opens at the same position events are ordered by
ascending `order`; since a recognized span contributes an open event with
`order = -length` (and a close event at `offset + length` with
`order = length`), the span with the greater length opens first.  Rendering
`"Hello world"` with bold `(0,10)` and italic `(0,5)` yields
`"<b><i>Hello</i> worl</b>d"` (the bold close lands at position 10, one short
of the text end). -/
theorem toHtml_event_order (entities : List TgEntity) :
    ((sortPoints (pointsOf entities)).Pairwise fun a b =>
      a.idx ≤ b.idx ∧
      (a.idx = b.idx → a.kind = EvKind.opening → b.kind = EvKind.opening) ∧
      (a.idx = b.idx → a.kind = EvKind.opening → b.kind = EvKind.opening →
        a.order ≤ b.order)) ∧
    (∀ e ∈ entities, ∀ tag, tagFor e.type = some tag →
      (⟨e.offset, openVal e tag, EvKind.opening, -(e.length : Int)⟩ : HtmlPoint) ∈
        pointsOf entities ∧
      (⟨e.offset + e.length, closeVal e tag, EvKind.closing, (e.length : Int)⟩ : HtmlPoint) ∈
        pointsOf entities) ∧
    toHtml "Hello world".toList
        [⟨"bold".toList, 0, 10, []⟩, ⟨"italic".toList, 0, 5, []⟩] =
      "<b><i>Hello</i> worl</b>d".toList := by
  refine ⟨?_, ?_, by decide⟩
  · have hs := List.sorted_insertionSort pointLe (pointsOf entities)
    refine hs.imp ?_
    intro a b hab
    have h := (pointCmp_le_iff a b).mp hab
    refine ⟨?_, ?_, ?_⟩
    · omega
    · intro hi ha
      have hra : evRank a.kind = 1 := by rw [ha]; rfl
      cases hb : b.kind
      · rfl
      · exfalso
        have hrb : evRank b.kind = 0 := by rw [hb]; rfl
        omega
    · intro hi ha hb
      have hra : evRank a.kind = 1 := by rw [ha]; rfl
      have hrb : evRank b.kind = 1 := by rw [hb]; rfl
      omega
  · intro e he tag htag
    constructor
    · exact List.mem_flatMap.mpr ⟨e, he, by rw [htag]; simp⟩
    · exact List.mem_flatMap.mpr ⟨e, he, by rw [htag]; simp⟩

/-- C2 witness: `toHtml_event_order` applied to the two concrete spans; the
bold span contributes its open event at 0 with order -10 and its close event
at 10 with order 10. -/
theorem toHtml_event_order_witness :
    (⟨0, "<b>".toList, EvKind.opening, -(10 : Int)⟩ : HtmlPoint) ∈
      pointsOf [⟨"bold".toList, 0, 10, []⟩, ⟨"italic".toList, 0, 5, []⟩] ∧
    (⟨10, "</b>".toList, EvKind.closing, (10 : Int)⟩ : HtmlPoint) ∈
      pointsOf [⟨"bold".toList, 0, 10, []⟩, ⟨"italic".toList, 0, 5, []⟩] := by
  have h := (toHtml_event_order
      [⟨"bold".toList, 0, 10, []⟩, ⟨"italic".toList, 0, 5, []⟩]).2.1
    ⟨"bold".toList, 0, 10, []⟩ (by simp) "b".toList (by decide)
  exact h

/-- C9: the renderer is a total function; an empty span collection renders as
the fully escaped text, and a collection made only of unrecognized kinds
contributes no events, so the underlying text is still rendered, escaped and
unstyled. -/
theorem toHtml_degrades_gracefully (text : List Char) (entities : List TgEntity) :
    (entities = [] → toHtml text entities = escapeHtml text) ∧
    ((∀ e ∈ entities, tagFor e.type = none) → toHtml text entities = escapeHtml text) := by
  constructor
  · intro h
    subst h
    rfl
  · intro h
    cases entities with
    | nil => rfl
    | cons e es =>
      have hp : pointsOf (e :: es) = [] := pointsOf_nil_of_unknown h
      unfold toHtml
      rw [hp]
      show sweep text [] 0 [] = escapeHtml text
      unfold sweep
      cases text with
      | nil => rfl
      | cons c cs =>
        rw [if_pos (by simp)]
        simp

/-- C9 witness: a `mention` entity (no tag) over `"a&b"` renders as the plain
escaped text. -/
theorem toHtml_degrades_gracefully_witness :
    toHtml "a&b".toList [⟨"mention".toList, 0, 2, []⟩] = escapeHtml "a&b".toList := by
  exact (toHtml_degrades_gracefully "a&b".toList [⟨"mention".toList, 0, 2, []⟩]).2
    (by decide)

/-! ### Theorems: caption parser -/

/-- C6: the four-line example caption parses to code `"12"`, title `"Title"`,
category `"Action"` and description `"Hello\nWorld"` with the interior line
break preserved verbatim (and the description content offset 39, where
`"Hello"` starts in the raw caption). -/
theorem parseCaption_example :
    parseCaption "12 Title\nCategory: Action\nDescription: Hello\nWorld".toList =
      some ⟨"12".toList, "Title".toList, some "Action".toList,
        some "Hello\nWorld".toList, some 39⟩ := by
  decide

/-- C7: a caption whose trimmed first line fails the first-line regex parses
to `none`, and every record the parser does produce has a nonempty (already
trimmed) title — so a caption whose title is empty after trimming can never
produce a record. -/
theorem parseCaption_failure_modes (caption l0 : List Char)
    (rest : List (List Char)) (r : ParsedCaption) :
    (List.splitOn '\n' caption = l0 :: rest → firstLineMatch (trimChars l0) = none →
      parseCaption caption = none) ∧
    (parseCaption caption = some r → r.title ≠ []) := by
  constructor
  · intro hsplit hmatch
    unfold parseCaption
    rw [hsplit]
    split
    · rfl
    · rename_i l0x restx heq
      injection heq with e1 e2
      subst e1
      rw [hmatch]
  · intro h
    unfold parseCaption at h
    repeat' split at h
    all_goals try exact Option.noConfusion h
    all_goals injection h with h2
    all_goals rw [← h2]
    all_goals simp_all

/-- C7 witness: `"Hello"` has no leading code and fails; `"12 T"` parses and
its title `"T"` is nonempty. -/
theorem parseCaption_failure_modes_witness :
    parseCaption "Hello".toList = none ∧
    (⟨"12".toList, "T".toList, none, none, none⟩ : ParsedCaption).title ≠ [] := by
  constructor
  · exact (parseCaption_failure_modes "Hello".toList "Hello".toList []
      ⟨[], [], none, none, none⟩).1 (by decide) (by decide)
  · exact (parseCaption_failure_modes "12 T".toList "12 T".toList []
      ⟨"12".toList, "T".toList, none, none, none⟩).2 (by decide)

theorem cat_excludes_desc {t v : List Char} (h : lineCapture catPat t = some v) :
    lineCapture descPat t = none := by
  unfold lineCapture at h ⊢
  rcases hs : ciStarts catPat t with _ | rest
  · rw [hs] at h
    exact absurd h (by simp)
  · cases t with
    | nil => exact absurd hs (by simp [ciStarts, catPat])
    | cons c cs =>
      have hcl : c.toLower = 'C'.toLower := by
        by_contra hne
        rw [show catPat = 'C' :: ['a', 't', 'e', 'g', 'o', 'r', 'y', ':'] from rfl] at hs
        unfold ciStarts at hs
        rw [if_neg hne] at hs
        exact absurd hs (by simp)
      have hd : ciStarts descPat (c :: cs) = none := by
        rw [show descPat = 'D' :: ['e', 's', 'c', 'r', 'i', 'p', 't', 'i', 'o', 'n', ':']
          from rfl]
        unfold ciStarts
        rw [if_neg (by rw [hcl]; decide)]
      rw [hd]

theorem scanLines_category (lines : List (List Char)) (offset : Nat)
    (cat : Option (List Char)) :
    (scanLines lines offset cat).1 = lastCategory lines cat := by
  induction lines generalizing offset cat with
  | nil => rfl
  | cons line rest ih =>
    unfold scanLines
    rcases hc : lineCapture catPat (trimChars line) with _ | v
    · simp only [hc]
      rcases hd : lineCapture descPat (trimChars line) with _ | w
      · simp only [hd, ih]
        unfold lastCategory
        simp [hd, hc]
      · simp only [hd]
        rcases hd2 : lineCapture descPat line with _ | w2
        · simp only [hd2]
          unfold lastCategory
          simp [hd]
        · simp only [hd2]
          unfold lastCategory
          simp [hd]
    · simp only [hc, ih]
      have hnd := cat_excludes_desc hc
      unfold lastCategory
      simp [hnd, hc]

/-- C8 (amended): the scan overwrites `category` on every matching line, so
when several case-insensitive `Category: <value>` lines precede the first
`Description:` marker, the parser records the trimmed value of the *last*
such occurrence, not the first. -/
theorem parseCaption_category_last (caption l0 : List Char)
    (lines : List (List Char)) (r : ParsedCaption)
    (hsplit : List.splitOn '\n' caption = l0 :: lines)
    (h : parseCaption caption = some r) :
    r.category = lastCategory lines none := by
  unfold parseCaption at h
  rw [hsplit] at h
  split at h
  · exact Option.noConfusion h
  · rename_i l0x restx heq
    injection heq with e1 e2
    subst e1
    subst e2
    repeat' split at h
    all_goals try exact Option.noConfusion h
    all_goals injection h with h2
    all_goals rw [← h2]
    all_goals exact scanLines_category lines (l0.length + 1) none

/-- C8 counterexample: with `Category: A` and `Category: B` both before the
`Description:` marker, the recorded category is `"B"` (the last occurrence),
not the claimed first occurrence `"A"`. -/
theorem parseCaption_category_counterexample :
    (parseCaption "1 T\nCategory: A\nCategory: B\nDescription: D".toList).map
      ParsedCaption.category = some (some "B".toList) ∧
    some ("B".toList) ≠ some ("A".toList) := by
  decide

/-- C8 witness: `parseCaption_category_last` applied to the two-category
caption; both sides evaluate to `"B"`. -/
theorem parseCaption_category_last_witness :
    (⟨"1".toList, "T".toList, some "B".toList, some "D".toList, some 41⟩ :
      ParsedCaption).category =
    lastCategory ["Category: A".toList, "Category: B".toList,
      "Description: D".toList] none := by
  exact parseCaption_category_last
    "1 T\nCategory: A\nCategory: B\nDescription: D".toList "1 T".toList
    ["Category: A".toList, "Category: B".toList, "Description: D".toList]
    ⟨"1".toList, "T".toList, some "B".toList, some "D".toList, some 41⟩
    (by decide) (by decide)

/-! ### Theorems: membership gate -/

/-- C5: a required channel lands in the unmet list exactly when its lookup
errored or returned a status outside member/administrator/creator (fail
closed), the unmet list is a sublist of the required channels, and the active
gate passes exactly when the unmet list is empty. -/
theorem forceJoin_unmet (channels : List (List Char))
    (lookup : List Char → Option (List Char)) (ch : List Char) :
    (ch ∈ notJoinedChannels channels lookup ↔
      ch ∈ channels ∧ ∀ st, lookup ch = some st → st ∉ joinedStatuses) ∧
    (forceJoinCheck true channels lookup = true ↔
      notJoinedChannels channels lookup = []) := by
  constructor
  · rw [notJoinedChannels, List.mem_filter]
    constructor
    · rintro ⟨hm, hf⟩
      refine ⟨hm, ?_⟩
      intro st hst
      rw [hst] at hf
      simp at hf
      exact hf
    · rintro ⟨hm, hall⟩
      refine ⟨hm, ?_⟩
      rcases hl : lookup ch with _ | st
      · rfl
      · simp [hall st hl]
  · rw [forceJoinCheck]
    simp [List.isEmpty_iff]

/-! ### Theorems: broadcast dispatcher -/

theorem chunkArray_nil {α : Type} (s : Nat) : chunkArray ([] : List α) s = [] := by
  unfold chunkArray
  rfl

theorem chunkArray_cons {α : Type} (a : α) (as : List α) (s : Nat) :
    chunkArray (a :: as) (s + 1) =
      ((a :: as).take (s + 1)) :: chunkArray ((a :: as).drop (s + 1)) (s + 1) := by
  rw [chunkArray]

theorem chunkArray_ne_nil {α : Type} (l : List α) (s : Nat) (h : l ≠ []) :
    chunkArray l (s + 1) = (l.take (s + 1)) :: chunkArray (l.drop (s + 1)) (s + 1) := by
  cases l with
  | nil => exact absurd rfl h
  | cons a as => exact chunkArray_cons a as s

theorem chunkArray_flatten {α : Type} (l : List α) (s : Nat) :
    (chunkArray l (s + 1)).flatten = l := by
  have key : ∀ n (l : List α), l.length = n → (chunkArray l (s + 1)).flatten = l := by
    intro n
    induction n using Nat.strong_induction_on with
    | _ n ih =>
      intro l hn
      cases l with
      | nil => simp [chunkArray_nil]
      | cons a as =>
        rw [chunkArray_ne_nil _ _ (by simp), List.flatten_cons,
          ih ((a :: as).drop (s + 1)).length (by subst hn; simp [List.length_drop]; omega)
            ((a :: as).drop (s + 1)) rfl]
        exact List.take_append_drop (s + 1) (a :: as)
  exact key l.length l rfl

theorem chunkArray_length_of_60 {α : Type} (l : List α) (h : l.length = 60) :
    (chunkArray l 25).length = 3 := by
  have h1 : l ≠ [] := by intro he; rw [he] at h; simp at h
  have e1 := chunkArray_ne_nil l 24 h1
  have hd1 : (l.drop 25).length = 35 := by simp [List.length_drop, h]
  have h2 : l.drop 25 ≠ [] := by intro he; rw [he] at hd1; simp at hd1
  have e2 := chunkArray_ne_nil (l.drop 25) 24 h2
  have hd2 : ((l.drop 25).drop 25).length = 10 := by simp [List.length_drop, h]
  have h3 : (l.drop 25).drop 25 ≠ [] := by intro he; rw [he] at hd2; simp at hd2
  have e3 := chunkArray_ne_nil ((l.drop 25).drop 25) 24 h3
  have hd3 : (((l.drop 25).drop 25).drop 25).length = 0 := by simp [List.length_drop, h]
  have h4 : ((l.drop 25).drop 25).drop 25 = [] := List.eq_nil_of_length_eq_zero hd3
  rw [e1, e2, e3, h4, chunkArray_nil]
  rfl

theorem flatMap_chunk {α β : Type} (L : List (List α)) (g : α → List β) :
    (L.flatMap fun c => c.flatMap g) = L.flatten.flatMap g := by
  induction L with
  | nil => rfl
  | cons c cs ih => simp [List.flatMap_append, ih]

theorem flatMap_congr_mem {α β : Type} (l : List α) (f g : α → List β)
    (h : ∀ x ∈ l, f x = g x) : l.flatMap f = l.flatMap g := by
  induction l with
  | nil => rfl
  | cons a as ih =>
    simp only [List.flatMap_cons]
    rw [h a (by simp), ih fun x hx => h x (by simp [hx])]

/-- C3: for every 60-recipient list (with truthy ids), wave size 25 yields
exactly 3 waves whose concatenation is the original list; the attempt log is
one attempt per `(recipient, payload)` pair in order, for *every* outcome
oracle — so one attempt's failure never suppresses the attempts of the other
recipients; and a recipient is passed to the removal callback only when one of
its attempts failed with a message classified permanently unreachable
(`Forbidden` / `user is deactivated`). -/
theorem broadcast_waves_and_pruning (users : List (List Char))
    (items : List BroadcastItem) (send : List Char → BroadcastItem → SendResult)
    (h60 : users.length = 60) (hne : ∀ u ∈ users, u ≠ []) :
    (chunkArray users 25).length = 3 ∧
    (chunkArray users 25).flatten = users ∧
    broadcastLog users items send =
      users.flatMap (fun u => items.map fun it => (u, it, attemptOne send u it)) ∧
    ∀ u, u ∈ broadcastRemovals users items send →
      ∃ it ∈ items, ∃ m, attemptOne send u it = some (SendResult.failed m) ∧
        isPermanentMsg m = true := by
  have hflat : (chunkArray users 25).flatten = users := chunkArray_flatten users 24
  have hlog : broadcastLog users items send =
      users.flatMap (fun u => items.map fun it => (u, it, attemptOne send u it)) := by
    rw [broadcastLog, flatMap_chunk, hflat]
    refine flatMap_congr_mem _ _ _ ?_
    intro u hu
    have hu2 : u.isEmpty = false := by
      cases u with
      | nil => exact absurd rfl (hne [] hu)
      | cons c cs => rfl
    rw [userAttempts, hu2]
    rfl
  refine ⟨chunkArray_length_of_60 users h60, hflat, hlog, ?_⟩
  intro u hu
  rw [broadcastRemovals, hlog] at hu
  rcases List.mem_filterMap.mp hu with ⟨a, ha, hcl⟩
  rcases List.mem_flatMap.mp ha with ⟨u2, hu2, hina⟩
  rcases List.mem_map.mp hina with ⟨it, hit, rfl⟩
  rcases hres : attemptOne send u2 it with _ | r
  · rw [hres] at hcl
    simp at hcl
  · cases r with
    | delivered =>
      rw [hres] at hcl
      simp at hcl
    | failed m =>
      rw [hres] at hcl
      by_cases hp : isPermanentMsg m = true
      · simp [hp] at hcl
        subst hcl
        exact ⟨it, hit, m, hres, hp⟩
      · simp [hp] at hcl

/-- C3 witness: 60 concrete recipients `"0".."59"`, one text payload, and an
oracle that fails recipient `"7"` with a blocked-user message: 3 waves whose
concatenation is the full list, and every pruned recipient has a
permanently-classified failing attempt. -/
theorem broadcast_waves_and_pruning_witness :
    (chunkArray ((List.range 60).map (Nat.toDigits 10)) 25).length = 3 ∧
    (chunkArray ((List.range 60).map (Nat.toDigits 10)) 25).flatten =
      (List.range 60).map (Nat.toDigits 10) ∧
    ∀ u, u ∈ broadcastRemovals ((List.range 60).map (Nat.toDigits 10))
        [⟨some "hi".toList, none, none⟩]
        (fun u _ => if u = Nat.toDigits 10 7 then
          SendResult.failed "403: Forbidden: bot was blocked by the user".toList
        else SendResult.delivered) →
      ∃ it ∈ [(⟨some "hi".toList, none, none⟩ : BroadcastItem)], ∃ m,
        attemptOne (fun u _ => if u = Nat.toDigits 10 7 then
          SendResult.failed "403: Forbidden: bot was blocked by the user".toList
        else SendResult.delivered) u it = some (SendResult.failed m) ∧
        isPermanentMsg m = true := by
  have h := broadcast_waves_and_pruning ((List.range 60).map (Nat.toDigits 10))
    [⟨some "hi".toList, none, none⟩]
    (fun u _ => if u = Nat.toDigits 10 7 then
      SendResult.failed "403: Forbidden: bot was blocked by the user".toList
    else SendResult.delivered)
    (by decide) (by decide)
  exact ⟨h.1, h.2.1, h.2.2.2⟩

end MoviesBot
